import Mathlib

/-!
Verification of the Mr-Code-Fixer issue-resolution pipeline.

The Go sources are shallowly embedded: Go strings become `List Char`
(the programs only manipulate ASCII in the properties studied here, where
Go's byte-based `len`/slicing agrees with character counts), pure Go
functions become Lean functions, and the side-effecting issue-processing
driver becomes a pure function from an environment of collaborator
outcomes to a result plus a trace of emitted external actions.
-/

namespace MCF

/-! ### String primitives mirroring Go's `strings` package -/

/-- Test `leadsWith sub s` : `sub` occurs at the start of `s`
(the prefix test underlying `strings.Contains`). -/
def leadsWith : List Char → List Char → Bool
  | [], _ => true
  | _ :: _, [] => false
  | a :: as, b :: bs => a == b && leadsWith as bs

/-- Go `strings.Contains(s, sub)`: `sub` occurs contiguously in `s`. -/
def strContains (s sub : List Char) : Bool :=
  match s with
  | [] => sub.isEmpty
  | c :: rest => leadsWith sub (c :: rest) || strContains rest sub

/-- Go `strings.HasSuffix(s, suf)`. -/
def strHasSuffix (s suf : List Char) : Bool :=
  leadsWith suf.reverse s.reverse

/-- Go `strings.ToLower` restricted to ASCII (all inputs studied are ASCII). -/
def toLowerStr (s : List Char) : List Char :=
  s.map Char.toLower

/-- Go `strings.ReplaceAll(s, old, new)` for single-character old/new. -/
def replaceAllChar (s : List Char) (a b : Char) : List Char :=
  s.map (fun c => if c == a then b else c)

/-- Removal of every occurrence of a character
(Go `strings.ReplaceAll(s, old, "")` for a single-character old). -/
def removeAllChar (s : List Char) (a : Char) : List Char :=
  s.filter (fun c => !(c == a))

/-! ### Relevance scorer (`calculateRelevance`, src/unnamed/part_004:330-360) -/

/-- Entry-point hint test from `calculateRelevance`: the (lowercased) path
contains one of main/index/app/server. -/
def entryHint (lowerPath : List Char) : Bool :=
  strContains lowerPath ("main".toList) || strContains lowerPath ("index".toList) ||
  strContains lowerPath ("app".toList) || strContains lowerPath ("server".toList)

/-- Score `calculateRelevance(filePath, mentionedFiles, keywords)`:
+100 per mentioned file whose lowercased text is contained in the lowercased
path, +10 per keyword contained in the lowercased path; if the running total
is still 0, +5 for an entry-point hint and +1 baseline. -/
def calculateRelevance (filePath : List Char)
    (mentionedFiles keywords : List (List Char)) : Int :=
  let lowerPath := toLowerStr filePath
  let mentionScore : Int :=
    100 * ((mentionedFiles.filter
      (fun m => strContains lowerPath (toLowerStr m))).length : Int)
  let keywordScore : Int :=
    10 * ((keywords.filter (fun k => strContains lowerPath k)).length : Int)
  let base := mentionScore + keywordScore
  if base = 0 then base + (if entryHint lowerPath then 5 else 0) + 1
  else base

/-- C7: for every candidate path and every (possibly empty) set of mentioned
files and keywords the relevance score is non-negative; with zero mention
matches and zero keyword matches the score is still at least 1, and exactly 6
when the lowercased path contains an entry-point hint (main/index/app/server),
exactly 1 otherwise. -/
theorem C7_relevance_nonneg_baseline (p : List Char) (M K : List (List Char))
    (hm : ∀ m ∈ M, strContains (toLowerStr p) (toLowerStr m) = false)
    (hk : ∀ k ∈ K, strContains (toLowerStr p) k = false) :
    (∀ (q : List Char) (Mq Kq : List (List Char)), 0 ≤ calculateRelevance q Mq Kq) ∧
    1 ≤ calculateRelevance p M K ∧
    (entryHint (toLowerStr p) = true → calculateRelevance p M K = 6) ∧
    (entryHint (toLowerStr p) = false → calculateRelevance p M K = 1) := by
  have hfil : ∀ (q : List Char) (Mq : List (List Char)),
      (0 : Int) ≤ 100 * ((Mq.filter
        (fun m => strContains (toLowerStr q) (toLowerStr m))).length : Int) := by
    intro q Mq; positivity
  refine ⟨?_, ?_⟩
  · intro q Mq Kq
    simp only [calculateRelevance]
    split
    · split <;> omega
    · have h1 := hfil q Mq
      have h2 : (0 : Int) ≤ 10 * ((Kq.filter
          (fun k => strContains (toLowerStr q) k)).length : Int) := by positivity
      omega
  · have hM0 : M.filter (fun m => strContains (toLowerStr p) (toLowerStr m)) = [] := by
      rw [List.filter_eq_nil_iff]
      intro m hmem
      simp [hm m hmem]
    have hK0 : K.filter (fun k => strContains (toLowerStr p) k) = [] := by
      rw [List.filter_eq_nil_iff]
      intro k hmem
      simp [hk k hmem]
    simp only [calculateRelevance, hM0, hK0, List.length_nil, Nat.cast_zero,
      mul_zero, add_zero, zero_add, if_pos rfl]
    cases h : entryHint (toLowerStr p) <;> simp [h]

/-- Witness for C7 at a concrete input: no mentions or keywords, path
`main.go` (entry-point hint present), score 6. -/
theorem C7_witness :
    0 ≤ calculateRelevance ("util.py".toList) [("a.go".toList)] [] ∧
    calculateRelevance ("main.go".toList) [] [] = 6 := by
  refine ⟨(C7_relevance_nonneg_baseline ("x".toList) [] [] (by simp) (by simp)).1 _ _ _, ?_⟩
  exact (C7_relevance_nonneg_baseline ("main.go".toList) [] []
    (by simp) (by simp)).2.2.1 (by decide)

/-- C6 (counterexample): with the single mention `src/main.go` and no
keywords, the matched path `src/main.go` scores 100 while the unmatched
`src/main.js` falls into the baseline branch (entry-point hint `main`)
and scores 6, a gap of 94 — strictly less than the claimed 100. -/
theorem C6_counterexample :
    strContains (toLowerStr ("src/main.go".toList))
      (toLowerStr ("src/main.go".toList)) = true ∧
    strContains (toLowerStr ("src/main.js".toList))
      (toLowerStr ("src/main.go".toList)) = false ∧
    calculateRelevance ("src/main.go".toList) [("src/main.go".toList)] [] -
      calculateRelevance ("src/main.js".toList) [("src/main.go".toList)] [] = 94 ∧
    ¬ (100 ≤ calculateRelevance ("src/main.go".toList) [("src/main.go".toList)] [] -
        calculateRelevance ("src/main.js".toList) [("src/main.go".toList)] []) := by
  refine ⟨by decide, by decide, by decide, by decide⟩

/-- C6 (amended): if some mentioned file matches the candidate's lowercased
path, no mention matches the other candidate, and both candidates have the
same number of keyword matches, then the matched candidate's score exceeds
the unmatched one's by at least 94 (the baseline branch can contribute up to
6 to the unmatched candidate; the gap is at least 100 whenever the unmatched
candidate has at least one keyword match). -/
theorem C6_mention_bonus_amended (pA pB : List Char) (M K : List (List Char))
    (hA : ∃ m ∈ M, strContains (toLowerStr pA) (toLowerStr m) = true)
    (hB : ∀ m ∈ M, strContains (toLowerStr pB) (toLowerStr m) = false)
    (hK : (K.filter (fun k => strContains (toLowerStr pA) k)).length
        = (K.filter (fun k => strContains (toLowerStr pB) k)).length) :
    calculateRelevance pB M K + 94 ≤ calculateRelevance pA M K ∧
    (0 < (K.filter (fun k => strContains (toLowerStr pB) k)).length →
      calculateRelevance pB M K + 100 ≤ calculateRelevance pA M K) := by
  obtain ⟨m, hmM, hm⟩ := hA
  have hA1 : 1 ≤ (M.filter
      (fun x => strContains (toLowerStr pA) (toLowerStr x))).length := by
    have hmem : m ∈ M.filter
        (fun x => strContains (toLowerStr pA) (toLowerStr x)) :=
      List.mem_filter.mpr ⟨hmM, by simp [hm]⟩
    calc 1 ≤ 1 := le_refl 1
    _ ≤ _ := List.length_pos.mpr (List.ne_nil_of_mem hmem)
  have hB0 : M.filter (fun x => strContains (toLowerStr pB) (toLowerStr x)) = [] := by
    rw [List.filter_eq_nil_iff]
    intro x hx
    simp [hB x hx]
  simp only [calculateRelevance, hB0, List.length_nil, Nat.cast_zero, mul_zero,
    zero_add, ← hK]
  set mA : Nat := (M.filter
    (fun x => strContains (toLowerStr pA) (toLowerStr x))).length with hmA
  set kA : Nat := (K.filter (fun k => strContains (toLowerStr pA) k)).length with hkA
  have h100 : (100 : Int) ≤ 100 * (mA : Int) := by
    have : (1 : Int) ≤ (mA : Int) := by exact_mod_cast hA1
    nlinarith
  have hknn : (0 : Int) ≤ 10 * (kA : Int) := by positivity
  have hbigA : ¬ (100 * (mA : Int) + 10 * (kA : Int) = 0) := by omega
  rw [if_neg hbigA]
  constructor
  · by_cases hzero : (10 : Int) * (kA : Int) = 0
    · rw [if_pos hzero]
      split <;> omega
    · rw [if_neg hzero]
      omega
  · intro hkb
    have hk1 : (1 : Int) ≤ (kA : Int) := by exact_mod_cast hkb
    have hzero : ¬ ((10 : Int) * (kA : Int) = 0) := by omega
    rw [if_neg hzero]
    omega

/-- Witness for C6 at concrete inputs: mention `src/main.go` matches
`src/main.go` but not `src/main.js` with no keywords (94 bound), and
mention `lib/parse.go` matches `lib/parse.go` but not `lib/parse.js` while
the keyword `parse` matches both once (100 bound). -/
theorem C6_witness :
    (calculateRelevance ("src/main.js".toList) [("src/main.go".toList)] [] + 94 ≤
      calculateRelevance ("src/main.go".toList) [("src/main.go".toList)] []) ∧
    (calculateRelevance ("lib/parse.js".toList) [("lib/parse.go".toList)]
        [("parse".toList)] + 100 ≤
      calculateRelevance ("lib/parse.go".toList) [("lib/parse.go".toList)]
        [("parse".toList)]) :=
  ⟨(C6_mention_bonus_amended ("src/main.go".toList) ("src/main.js".toList)
      [("src/main.go".toList)] []
      (by decide) (by decide) (by decide)).1,
   (C6_mention_bonus_amended ("lib/parse.go".toList) ("lib/parse.js".toList)
      [("lib/parse.go".toList)] [("parse".toList)]
      (by decide) (by decide) (by decide)).2 (by decide)⟩

/-! ### Ranking (`sortFilesByScore`, src/unnamed/part_004:362-371) -/

/-- Record `fileScore` pairs a relative path with its relevance score. -/
structure fileScore where
  path : List Char
  score : Int
deriving DecidableEq, Repr

/-- One iteration of the outer loop of `sortFilesByScore`: holding the
current value of `files[i]` (`cur`), sweep `j = i+1 …` over the suffix and
swap whenever `files[j].score > files[i].score`.  Returns the final value
left at position `i` together with the updated suffix. -/
def innerPass (cur : fileScore) : List fileScore → fileScore × List fileScore
  | [] => (cur, [])
  | x :: xs =>
    if cur.score < x.score then
      let r := innerPass x xs
      (r.1, cur :: r.2)
    else
      let r := innerPass cur xs
      (r.1, x :: r.2)

theorem innerPass_snd_length (cur : fileScore) (l : List fileScore) :
    (innerPass cur l).2.length = l.length := by
  induction l generalizing cur with
  | nil => rfl
  | cons x xs ih =>
    simp only [innerPass]
    split <;> simp [ih]

/-- The outer loop of the exchange sort, with the loop count made explicit
(one outer iteration consumes one list position, so `files.length` rounds
suffice, matching the Go bound `i < len(files)-1` up to trailing no-ops). -/
def sortPass : Nat → List fileScore → List fileScore
  | 0, l => l
  | _ + 1, [] => []
  | n + 1, x :: xs =>
    let r := innerPass x xs
    r.1 :: sortPass n r.2

/-- The exchange sort of `sortFilesByScore`: for positions `i = 0, 1, …`
sweep the suffix, swapping whenever a strictly larger score is found.
Not a stable sort. -/
def sortFilesByScore (files : List fileScore) : List fileScore :=
  sortPass files.length files

theorem innerPass_perm (cur : fileScore) (l : List fileScore) :
    ((innerPass cur l).1 :: (innerPass cur l).2).Perm (cur :: l) := by
  induction l generalizing cur with
  | nil => rfl
  | cons x xs ih =>
    simp only [innerPass]
    split
    · exact List.Perm.trans
        (List.Perm.swap cur (innerPass x xs).1 (innerPass x xs).2)
        (List.Perm.cons cur (ih x))
    · exact List.Perm.trans
        (List.Perm.trans
          (List.Perm.swap x (innerPass cur xs).1 (innerPass cur xs).2)
          (List.Perm.cons x (ih cur)))
        (List.Perm.swap cur x xs)

theorem innerPass_fst_max (cur : fileScore) (l : List fileScore) :
    cur.score ≤ (innerPass cur l).1.score ∧
    ∀ y ∈ l, y.score ≤ (innerPass cur l).1.score := by
  induction l generalizing cur with
  | nil => exact ⟨le_refl _, by simp⟩
  | cons x xs ih =>
    simp only [innerPass]
    split
    · rename_i hlt
      refine ⟨le_of_lt (lt_of_lt_of_le hlt (ih x).1), ?_⟩
      intro y hy
      rcases List.mem_cons.mp hy with h | h
      · rw [h]; exact (ih x).1
      · exact (ih x).2 y h
    · rename_i hge
      refine ⟨(ih cur).1, ?_⟩
      intro y hy
      rcases List.mem_cons.mp hy with h | h
      · rw [h]; exact le_trans (le_of_not_lt hge) (ih cur).1
      · exact (ih cur).2 y h

theorem sortPass_perm (n : Nat) (l : List fileScore) (hn : l.length ≤ n) :
    (sortPass n l).Perm l := by
  induction n generalizing l with
  | zero => simp [sortPass]
  | succ n ih =>
    match l with
    | [] => simp [sortPass]
    | x :: xs =>
      rw [sortPass]
      have hlen : (innerPass x xs).2.length = xs.length := innerPass_snd_length x xs
      have hrec : (sortPass n (innerPass x xs).2).Perm (innerPass x xs).2 := by
        refine ih _ ?_
        rw [hlen]
        simpa using Nat.lt_succ_iff.mp (lt_of_lt_of_le (by simp) hn)
      exact List.Perm.trans (List.Perm.cons (innerPass x xs).1 hrec) (innerPass_perm x xs)

theorem sortFilesByScore_perm (l : List fileScore) :
    (sortFilesByScore l).Perm l :=
  sortPass_perm l.length l (le_refl _)

theorem sortPass_sorted (n : Nat) (l : List fileScore) (hn : l.length ≤ n) :
    (sortPass n l).Pairwise (fun a b => b.score ≤ a.score) := by
  induction n generalizing l with
  | zero =>
    have : l = [] := List.length_eq_zero.mp (Nat.le_zero.mp hn)
    simp [this, sortPass]
  | succ n ih =>
    match l with
    | [] => simp [sortPass]
    | x :: xs =>
      rw [sortPass]
      have hlen : (innerPass x xs).2.length = xs.length := innerPass_snd_length x xs
      have hxs : (innerPass x xs).2.length ≤ n := by
        rw [hlen]
        simpa using Nat.lt_succ_iff.mp (lt_of_lt_of_le (by simp) hn)
      refine List.Pairwise.cons ?_ (ih _ hxs)
      intro b hb
      have hbmem : b ∈ (innerPass x xs).2 :=
        (sortPass_perm n (innerPass x xs).2 hxs).mem_iff.mp hb
      have hbl : b ∈ x :: xs :=
        (innerPass_perm x xs).mem_iff.mp (List.mem_cons_of_mem _ hbmem)
      rcases List.mem_cons.mp hbl with h | h
      · rw [h]; exact (innerPass_fst_max x xs).1
      · exact (innerPass_fst_max x xs).2 b h

/-- The `sortFilesByScore` output is weakly descending in score. -/
theorem sortFilesByScore_sorted (l : List fileScore) :
    (sortFilesByScore l).Pairwise (fun a b => b.score ≤ a.score) :=
  sortPass_sorted l.length l (le_refl _)

/-- C4 (counterexample): `sortFilesByScore` is not stable.  On the input
`[(a,1), (b,1), (c,2)]` the Go loop first swaps `a` with `c`, leaving the
two equal-score entries in the order `b, a` — the stable descending result
`[(c,2), (a,1), (b,1)]` is not produced. -/
theorem C4_counterexample :
    sortFilesByScore
        [⟨("a".toList), 1⟩, ⟨("b".toList), 1⟩, ⟨("c".toList), 2⟩] =
      [⟨("c".toList), 2⟩, ⟨("b".toList), 1⟩, ⟨("a".toList), 1⟩] ∧
    sortFilesByScore
        [⟨("a".toList), 1⟩, ⟨("b".toList), 1⟩, ⟨("c".toList), 2⟩] ≠
      [⟨("c".toList), 2⟩, ⟨("a".toList), 1⟩, ⟨("b".toList), 1⟩] := by
  refine ⟨by decide, by decide⟩

/-- C4 (amended): the ranking step sorts descending by score and permutes
the input, but it is an in-place exchange sort that does NOT preserve the
original discovery order among equal scores. -/
theorem C4_sort_descending_perm_amended (l : List fileScore) :
    (sortFilesByScore l).Pairwise (fun a b => b.score ≤ a.score) ∧
    (sortFilesByScore l).Perm l :=
  ⟨sortFilesByScore_sorted l, sortFilesByScore_perm l⟩

/-! ### Issue-text tokenisation (src/unnamed/part_004:276-327) -/

/-- Whitespace recogniser for Go `strings.Fields` (ASCII whitespace). -/
def isSpaceChar (c : Char) : Bool :=
  c == ' ' || c == '\t' || c == '\n' || c == '\r'

def fieldsByAux (isSep : Char → Bool) : List Char → List Char → List (List Char)
  | cur, [] => if cur.isEmpty then [] else [cur.reverse]
  | cur, c :: rest =>
    if isSep c then
      if cur.isEmpty then fieldsByAux isSep [] rest
      else cur.reverse :: fieldsByAux isSep [] rest
    else fieldsByAux isSep (c :: cur) rest

/-- Split into maximal runs of non-separator characters
(Go `strings.Fields` / `strings.FieldsFunc`). -/
def fieldsBy (isSep : Char → Bool) (s : List Char) : List (List Char) :=
  fieldsByAux isSep [] s

/-- Go `strings.Trim(s, cutset)`. -/
def trimChars (s cutset : List Char) : List Char :=
  ((s.dropWhile (fun c => cutset.contains c)).reverse.dropWhile
    (fun c => cutset.contains c)).reverse

def mentionTrimCutset : List Char := "`,\"'()[]".toList

def mentionExts : List (List Char) :=
  [".go", ".js", ".ts", ".py", ".java", ".rb", ".php", ".tsx", ".jsx"].map
    String.toList

/-- Mentions `extractFileMentions`: lowercase, split on whitespace, strip surrounding
punctuation; keep words that contain a path separator and end in one of the
recognised source extensions. -/
def extractFileMentions (text : List Char) : List (List Char) :=
  let lower := toLowerStr text
  (fieldsBy isSpaceChar lower).filterMap (fun w0 =>
    let w := trimChars w0 mentionTrimCutset
    if strContains w ("/".toList) || strContains w ("\\".toList) then
      if mentionExts.any (fun ext => strHasSuffix w ext) then some w else none
    else none)

def stopWords : List (List Char) :=
  ["the", "a", "an", "and", "or", "but",
   "in", "on", "at", "to", "for", "of",
   "with", "is", "are", "was", "were", "been",
   "be", "have", "has", "had", "do", "does",
   "did", "will", "would", "should", "could",
   "this", "that", "these", "those", "i", "you",
   "he", "she", "it", "we", "they", "please",
   "help", "need", "want", "issue", "problem"].map String.toList

def isAlphaNumChar (c : Char) : Bool :=
  ('a' ≤ c && c ≤ 'z') || ('A' ≤ c && c ≤ 'Z') || ('0' ≤ c && c ≤ '9')

/-- Keywords `extractKeywords`: lowercase, split on non-alphanumeric boundaries, keep
words longer than 3 characters that are not stop words. -/
def extractKeywords (text : List Char) : List (List Char) :=
  let lower := toLowerStr text
  (fieldsBy (fun c => !(isAlphaNumChar c)) lower).filter
    (fun w => decide (3 < w.length) && !(stopWords.contains w))

/-! ### Context builder (`GetRepoContext`, src/unnamed/part_004:133-274) -/

def extFromRevAux : List Char → List Char → List Char
  | _, [] => []
  | acc, c :: rest =>
    if c == '.' then c :: acc
    else if c == '/' then []
    else extFromRevAux (c :: acc) rest

/-- Go `filepath.Ext`: the suffix beginning at the final dot in the final
path element; empty if there is none. -/
def fileExt (p : List Char) : List Char :=
  extFromRevAux [] p.reverse

def sourceExts : List (List Char) :=
  [".go", ".py", ".js", ".ts", ".jsx", ".tsx",
   ".java", ".c", ".cpp", ".h", ".hpp",
   ".rs", ".rb", ".php", ".cs", ".swift",
   ".kt", ".scala", ".sh", ".bash",
   ".html", ".css", ".scss", ".vue"].map String.toList

def isSourceFile (ext : List Char) : Bool :=
  sourceExts.contains ext

def skipDirNames : List (List Char) :=
  ["node_modules", "vendor", "target", "dist", "build",
   "test", "tests", "__pycache__"].map String.toList

def startsWithDot : List Char → Bool
  | [] => false
  | c :: _ => c == '.'

/-- Directory components of a relative path (everything but the file name). -/
def pathDirComponents (p : List Char) : List (List Char) :=
  (fieldsBy (fun c => c == '/') p).dropLast

/-- The walk's `filepath.SkipDir` rule: a file is skipped when any directory
on its relative path is dot-prefixed or one of the ignored names. -/
def underSkippedDir (p : List Char) : Bool :=
  (pathDirComponents p).any (fun comp =>
    startsWithDot comp || skipDirNames.contains comp)

/-- A file of the cloned working copy as seen by the walk, in discovery
order: relative path, byte size, content. -/
structure SrcFile where
  path : List Char
  size : Nat
  content : List Char
deriving DecidableEq, Repr

/-- Read `os.ReadFile` against the modelled working copy. -/
def readFile (repo : List SrcFile) (p : List Char) : Option (List Char) :=
  (repo.find? (fun f => f.path == p)).map (fun f => f.content)

/-- The `RepoContext` record.  `Files` is a Go `map[string]string`; the list
here records the key/value pairs in insertion order (Go itself attaches no
order to the map, and iterates it in unspecified order). -/
structure RepoContext where
  Files : List (List Char × List Char)
  FileCount : Nat
deriving Repr

/-- The fixed always-included manifest files of `GetRepoContext`. -/
def importantFiles : List (List Char) :=
  ["README.md", "package.json", "go.mod", "requirements.txt",
   "Cargo.toml", "pom.xml", "build.gradle"].map String.toList

/-- The manifest entries read into `ctx.Files` first (present files only). -/
def importantEntries (repo : List SrcFile) : List (List Char × List Char) :=
  importantFiles.filterMap (fun name =>
    (readFile repo name).map (fun c => (name, c)))

/-- The walk's scored candidates: not under a skipped directory, at most
100 KiB, a recognised source extension, and a strictly positive relevance
score. -/
def scoredCandidates (repo : List SrcFile)
    (mentioned keywords : List (List Char)) : List fileScore :=
  repo.filterMap (fun f =>
    if !(underSkippedDir f.path) && decide (f.size ≤ 100 * 1024) &&
        isSourceFile (fileExt f.path) then
      let score := calculateRelevance f.path mentioned keywords
      if 0 < score then some ⟨f.path, score⟩ else none
    else none)

/-- Sort by relevance and take the top `maxFiles := 30`. -/
def selectedScored (repo : List SrcFile)
    (issueTitle issueBody : List Char) : List fileScore :=
  let text := issueTitle ++ (" ".toList) ++ issueBody
  let mentioned := extractFileMentions text
  let keywords := extractKeywords text
  (sortFilesByScore (scoredCandidates repo mentioned keywords)).take 30

/-- Builder `GetRepoContext` (the `Files`/`FileCount` portion): manifest files are
inserted first, then the selected scored files in ranked order. -/
def GetRepoContext (repo : List SrcFile)
    (issueTitle issueBody : List Char) : RepoContext :=
  let files := importantEntries repo ++
    (selectedScored repo issueTitle issueBody).filterMap
      (fun sf => (readFile repo sf.path).map (fun c => (sf.path, c)))
  { Files := files, FileCount := files.length }

/-- C3: for every repository and issue text the context builder selects at
most 30 relevance-scored files, and the file map holds at most those plus
the 7 always-included manifest files. -/
theorem C3_context_file_cap (repo : List SrcFile) (t b : List Char) :
    (selectedScored repo t b).length ≤ 30 ∧
    (GetRepoContext repo t b).Files.length ≤ importantFiles.length + 30 ∧
    importantFiles.length = 7 := by
  have hsel : (selectedScored repo t b).length ≤ 30 := by
    simp only [selectedScored]
    exact le_trans (List.length_take_le _ _) (le_refl _)
  refine ⟨hsel, ?_, by decide⟩
  simp only [GetRepoContext, List.length_append]
  have h1 : (importantEntries repo).length ≤ importantFiles.length := by
    simp only [importantEntries]
    exact List.length_filterMap_le _ _
  have h2 : ((selectedScored repo t b).filterMap
      (fun sf => (readFile repo sf.path).map (fun c => (sf.path, c)))).length ≤ 30 :=
    le_trans (List.length_filterMap_le _ _) hsel
  omega

/-- C5 (counterexample): on a working copy holding `README.md` and
`src/main.go`, with issue text mentioning `src/main.go`, the file map's
first inserted entry is the manifest file `README.md`, not the
highest-scored file `src/main.go` (score 110) — so the file-content
mapping does not present the highest-scored file first. -/
theorem C5_counterexample :
    (GetRepoContext
        [⟨("README.md".toList), 6, ("readme".toList)⟩,
         ⟨("src/main.go".toList), 12, ("package main".toList)⟩]
        ("fix src/main.go".toList) []).Files.head? =
      some (("README.md".toList), ("readme".toList)) ∧
    (selectedScored
        [⟨("README.md".toList), 6, ("readme".toList)⟩,
         ⟨("src/main.go".toList), 12, ("package main".toList)⟩]
        ("fix src/main.go".toList) []).head? =
      some ⟨("src/main.go".toList), 110⟩ ∧
    ("README.md".toList) ≠ ("src/main.go".toList) := by
  refine ⟨by decide, by decide, by decide⟩

/-- C5 (amended): the context builder is a pure function of the working
copy and issue text (two runs give the same key/value insertion sequence),
the insertion sequence is the manifest entries followed by the selected
scored files, and the selected scored files are in weakly descending score
order; the Go map carries no iteration order, so no ordering of the map
itself — in particular not highest-score-first — is guaranteed. -/
theorem C5_context_order_amended (repo : List SrcFile) (t b : List Char) :
    (GetRepoContext repo t b).Files =
      importantEntries repo ++
        (selectedScored repo t b).filterMap
          (fun sf => (readFile repo sf.path).map (fun c => (sf.path, c))) ∧
    (selectedScored repo t b).Pairwise (fun a b => b.score ≤ a.score) := by
  refine ⟨rfl, ?_⟩
  simp only [selectedScored]
  exact List.Pairwise.sublist (List.take_sublist _ _) (sortFilesByScore_sorted _)

/-! ### Issues, vagueness filter and branch naming (src/main.go) -/

/-- An issue report: number, title, body (src/github.go `Issue`; the fields
the pipeline logic reads). -/
structure Issue where
  number : Int
  title : List Char
  body : List Char
deriving DecidableEq, Repr

/-- The lowercased `title + " " + body` used by `isIssueTooVague`. -/
def combinedText (issue : Issue) : List Char :=
  toLowerStr (issue.title ++ (" ".toList) ++ issue.body)

def vaguePhrases : List (List Char) :=
  ["something is wrong", "something broken", "doesn't work", "not working",
   "broken", "fix this", "fix it", "help", "issue", "problem"].map
    String.toList

/-- First rule of `isIssueTooVague`: short title, a generic complaint
phrase, and a short body. -/
def vagueRuleOne (issue : Issue) : Bool :=
  decide (issue.title.length < 20) &&
  vaguePhrases.any (fun ph => strContains (combinedText issue) ph) &&
  decide (issue.body.length < 50)

/-- The file-mention test of `isIssueTooVague`: a `/` or one of the five
recognised source extensions occurs in the combined text. -/
def hasFileMention (combined : List Char) : Bool :=
  strContains combined ("/".toList) ||
  strContains combined (".js".toList) ||
  strContains combined (".py".toList) ||
  strContains combined (".go".toList) ||
  strContains combined (".php".toList) ||
  strContains combined (".java".toList)

/-- Second rule of `isIssueTooVague`: no file mention and a combined text
under 30 characters. -/
def vagueRuleTwo (issue : Issue) : Bool :=
  !(hasFileMention (combinedText issue)) &&
  decide ((combinedText issue).length < 30)

/-- Filter `isIssueTooVague` (src/main.go:896-939). -/
def isIssueTooVague (issue : Issue) : Bool :=
  vagueRuleOne issue || vagueRuleTwo issue

/-- The extensions recognised by the vagueness filter's mention test. -/
def vagueSourceExts : List (List Char) :=
  [".js", ".py", ".go", ".php", ".java"].map String.toList

/-- C8: the vagueness filter's second rule fires exactly when the combined
lowercased title+body has no path-like token (no `/` and none of the
recognised source extensions) and is under 30 characters; moreover
`isTooVague("Fix", "")` is true and
`isTooVague("Login button fails in src/auth/login.ts line 42", "...")` is
false. -/
theorem C8_vague_second_rule (i : Issue) :
    (vagueRuleTwo i = true ↔
      strContains (combinedText i) ("/".toList) = false ∧
      (∀ ext ∈ vagueSourceExts, strContains (combinedText i) ext = false) ∧
      (combinedText i).length < 30) ∧
    isIssueTooVague ⟨1, ("Fix".toList), []⟩ = true ∧
    isIssueTooVague
      ⟨2, ("Login button fails in src/auth/login.ts line 42".toList),
        ("...".toList)⟩ = false := by
  refine ⟨?_, by decide, by decide⟩
  simp only [vagueRuleTwo, hasFileMention, vagueSourceExts, List.map_cons,
    List.map_nil, List.forall_mem_cons, List.forall_mem_nil, and_true,
    Bool.and_eq_true, Bool.not_eq_true', Bool.or_eq_false_iff,
    decide_eq_true_eq]
  tauto

/-- Witness for C8 at the concrete vague issue `("Fix", "")`: the second
rule fires. -/
theorem C8_witness :
    vagueRuleTwo ⟨1, ("Fix".toList), []⟩ = true :=
  (C8_vague_second_rule ⟨1, ("Fix".toList), []⟩).1.mpr
    ⟨by decide, by decide, by decide⟩

/-- The apostrophe character removed by `createBranchName`. -/
def apostChar : Char := Char.ofNat 39

/-- The sanitised, 40-character-capped slug of an issue title: lowercase,
spaces to hyphens, the characters `? ! . ,` apostrophe and double quote
removed. -/
def sanitizeTitleSlug (title : List Char) : List Char :=
  let t := toLowerStr title
  let t := replaceAllChar t ' ' '-'
  let t := removeAllChar t '?'
  let t := removeAllChar t '!'
  let t := removeAllChar t '.'
  let t := removeAllChar t ','
  let t := removeAllChar t apostChar
  let t := removeAllChar t '"'
  if 40 < t.length then t.take 40 else t

/-- Branch name `createBranchName` (src/main.go:877-894). -/
def createBranchName (issue : Issue) : List Char :=
  ("fix/".toList) ++ (toString issue.number).toList ++ ("-".toList) ++
    sanitizeTitleSlug issue.title

/-- C9: the publish branch name is deterministically `fix/` + issue number
+ `-` + the sanitised slug of the title, the slug capped at 40 characters;
for issue #7 "Null pointer in src/util/parse.go" the deterministic slug is
`null-pointer-in-src/util/parsego` (spaces hyphenated, dots removed,
slashes retained), giving `fix/7-null-pointer-in-src/util/parsego`. -/
theorem C9_branch_name (issue : Issue) :
    createBranchName issue =
      ("fix/".toList) ++ (toString issue.number).toList ++ ("-".toList) ++
        sanitizeTitleSlug issue.title ∧
    (sanitizeTitleSlug issue.title).length ≤ 40 ∧
    createBranchName ⟨7, ("Null pointer in src/util/parse.go".toList), []⟩ =
      ("fix/7-null-pointer-in-src/util/parsego".toList) := by
  refine ⟨rfl, ?_, by decide⟩
  simp only [sanitizeTitleSlug]
  split
  · simp [List.length_take]
  · omega

/-! ### Fix proposals and test results (src/ai.go, src/tests.go) -/

/-- A whole-file replacement proposed by the model (src/unnamed/part_004
`FileChange`). -/
structure FileChange where
  FilePath : List Char
  Content : List Char
deriving DecidableEq, Repr

/-- The parsed model proposal (src/ai.go `Fix`). -/
structure Fix where
  FileChanges : List FileChange
  Explanation : List Char
  Confidence : List Char
  NeedsMoreInfo : Bool
  Questions : List (List Char)
deriving DecidableEq, Repr

/-- The outcome of the test runner's `Execute` (src/tests.go `TestResult`):
`Command = []` means no test command was detected (and then `Passed` is
true and `Output` is the fixed no-tests text). -/
structure TestResult where
  Passed : Bool
  Output : List Char
  Command : List Char
deriving DecidableEq, Repr

/-! ### The decision state machine (`processIssue`, src/main.go:606-875)

`processIssue` talks to the tracker, git, the model and the test runner.
The embedding makes each collaborator outcome an explicit field of an
environment and records every externally visible call in a trace of
actions; tally increments are recorded as actions too.  Error values keep
the fixed message prefix of the corresponding `fmt.Errorf` (the wrapped
underlying error is elided). -/

/-- One externally visible step of `processIssue`. -/
inductive Action where
  | addComment (issueNumber : Int) (body : List Char)
  | closeIssue (issueNumber : Int)
  | createBranch (name : List Char)
  | applyFile (path : List Char)
  | commit (message : List Char)
  | push (branch : List Char)
  | createPR (title body head base : List Char)
  | recordQuestionAsked
  | recordIssueHandled
  | recordPRCreated
  | printOut (s : List Char)
deriving DecidableEq, Repr

/-- Collaborator outcomes for one `processIssue` attempt. -/
structure Env where
  gitInitOk : Bool
  cloneOk : Bool
  repoCtxOk : Bool
  aiFix : Option Fix
  vagueCommentOk : Bool
  questionCommentOk : Bool
  responseCommentOk : Bool
  branchOk : Bool
  applyOkAt : Nat → Bool
  testResult : TestResult
  commitOk : Bool
  pushOk : Bool
  prURL : Option (List Char)
  closeCommentOk : Bool
  closeOk : Bool
  defaultBranch : List Char

/-- The fixed clarification template posted for vague issues. -/
def vagueQuestionComment : List Char :=
  ("## ❓ Need More Information\n\nHi! I'd love to help fix this issue, but I need more details to understand what's wrong.\n\nPlease provide:\n\n1. **What's the expected behavior?** What should happen?\n2. **What's the actual behavior?** What's currently happening instead?\n3. **Steps to reproduce:** How can I see this problem?\n4. **Any error messages?** Copy-paste any errors from console/logs\n5. **Which file(s) are affected?** (e.g., src/main.js or components/Login.tsx)\n\nThe more details you provide, the better I can help! 🙏\n\n---\n\n<sub>🤖 Mr. Code Fixer - I need clear information to create good fixes</sub>".toList)

/-- The numbered question lines `"%d. %s\n"` of the clarify comment,
starting at 1. -/
def questionsBlock : Nat → List (List Char) → List Char
  | _, [] => []
  | i, q :: qs =>
    (toString i).toList ++ (". ".toList) ++ q ++ ("\n".toList) ++
      questionsBlock (i + 1) qs

def questionCommentIntro : List Char :=
  "I need some clarification to fix this issue:\n\n".toList

def questionCommentOutro : List Char :=
  "\nPlease provide more details so I can create a proper fix.\n\n---\n*Asked by Mr. Code Fixer*".toList

/-- The clarify comment posted when the proposal needs more information. -/
def questionComment (questions : List (List Char)) : List Char :=
  questionCommentIntro ++ questionsBlock 1 questions ++ questionCommentOutro

/-- The no-code-needed response comment. -/
def responseComment (explanation : List Char) : List Char :=
  ("## 💬 Response\n\n".toList) ++ explanation ++
  ("\n\nThis issue appears to be a question or discussion rather than a bug or feature requiring code changes. If you need specific code modifications, please provide more details about what changes you'd like to see.\n\n---\n\n<sub>🤖 Mr. Code Fixer</sub>".toList)

/-- Commit message `"Fix #%d: %s\n\n%s"`. -/
def commitMessage (issue : Issue) (fix : Fix) : List Char :=
  ("Fix #".toList) ++ (toString issue.number).toList ++ (": ".toList) ++
    issue.title ++ ("\n\n".toList) ++ fix.Explanation

/-- Change-request title `"Fix #%d: %s"`. -/
def prTitle (issue : Issue) : List Char :=
  ("Fix #".toList) ++ (toString issue.number).toList ++ (": ".toList) ++
    issue.title

/-- The confidence banner of the change-request body. -/
def confidenceNote (confidence : List Char) : List Char :=
  if confidence == ("high".toList) then
    ("✅ **High confidence** - This fix should resolve the issue.".toList)
  else if confidence == ("medium".toList) then
    ("⚠️ **Medium confidence** - Please review carefully.".toList)
  else
    ("⚠️ **Low confidence** - This is a best attempt, please review thoroughly.".toList)

/-- The bulleted modified-files list of the change-request body. -/
def fileChangesListText : List FileChange → List Char
  | [] => []
  | c :: cs => ("- `".toList) ++ c.FilePath ++ ("`\n".toList) ++
      fileChangesListText cs

/-- The test-result note of the change-request body. -/
def testSection (tr : TestResult) : List Char :=
  if !tr.Command.isEmpty && tr.Passed then
    ("\n### ✅ Tests Passed\n\nAll existing tests passed after applying the changes.\n".toList)
  else []

/-- The change-request body. -/
def prBody (issue : Issue) (fix : Fix) (tr : TestResult) : List Char :=
  ("## 🔧 Automated Fix\n\nFixes #".toList) ++
  (toString issue.number).toList ++
  ("\n\n**Confidence Level:** ".toList) ++ confidenceNote fix.Confidence ++
  ("\n\n### 📋 Analysis\n\n".toList) ++ fix.Explanation ++
  ("\n\n### 🔨 Technical Details\n\nThis PR addresses the issue by making targeted changes to the codebase. The modifications were determined through analysis of the repository structure, issue description, and relevant code context.\n\n**Modified Files:**\n".toList) ++
  fileChangesListText fix.FileChanges ++
  ("\n**Approach:**\nThe fix was generated by analyzing the issue requirements and applying best practices for the detected programming language and framework. All changes maintain backward compatibility where possible and follow the existing code style.\n".toList) ++
  testSection tr ++
  ("\n**Testing Recommendations:**\n- Verify the fix addresses the reported issue\n- Check for any unintended side effects\n- Run existing test suite if available\n- Test edge cases related to the changes\n\n---\n\n<sub>🤖 This PR was automatically generated by [Mr. Code Fixer](https://github.com/pefman/Mr-Code-Fixer) - an AI-powered issue resolution bot</sub>".toList)

/-- The truncated file list of the closing comment (first three files,
comma-separated, then `" and %d more"`). -/
def closeFileListAux (total : Nat) : Nat → List FileChange → List Char
  | _, [] => []
  | i, c :: cs =>
    if i < 3 then
      ("`".toList) ++ c.FilePath ++ ("`".toList) ++
      (if decide (i < total - 1) && decide (i < 2) then (", ".toList) else []) ++
      closeFileListAux total (i + 1) cs
    else closeFileListAux total (i + 1) cs

def closeFileList (changes : List FileChange) : List Char :=
  closeFileListAux changes.length 0 changes ++
  (if 3 < changes.length then
    (" and ".toList) ++ (toString (changes.length - 3)).toList ++
      (" more".toList)
  else [])

/-- The high-confidence closing comment. -/
def closeComment (fix : Fix) (url : List Char) : List Char :=
  ("## ✅ Issue Resolved!\n\nGreat news! I've analyzed this issue and created a fix that should resolve the problem.\n\n**What I did:**\n".toList) ++
  fix.Explanation ++
  ("\n\n**Files modified:** ".toList) ++ closeFileList fix.FileChanges ++
  ("\n\n**Next steps:**\nI've created a pull request with the changes: ".toList) ++
  url ++
  ("\n\nPlease review the PR to make sure everything looks good. The fix has been implemented with high confidence, but it's always good to double-check before merging. If you notice any issues or have questions about the approach, feel free to comment on the PR!\n\n---\n\n<sub>🤖 Fixed automatically by Mr. Code Fixer</sub>".toList)

/-- Apply the proposed file changes one by one, stopping at the first
write failure. -/
def applyChangesAux (okAt : Nat → Bool) : Nat → List FileChange →
    List Action × Bool
  | _, [] => ([], true)
  | i, c :: cs =>
    if okAt i then
      let r := applyChangesAux okAt (i + 1) cs
      (Action.applyFile c.FilePath :: r.1, r.2)
    else ([Action.applyFile c.FilePath], false)

/-- The tail of the publish path after the test gate: commit, push, open
the change request, record tallies, and close on high confidence (close
failures only print warnings). -/
def afterTests (env : Env) (issue : Issue) (fix : Fix)
    (branchName : List Char) (acts : List Action) :
    Except (List Char) Unit × List Action :=
  let acts := acts ++ [Action.commit (commitMessage issue fix)]
  if !env.commitOk then
    (Except.error ("failed to commit changes".toList), acts)
  else
    let acts := acts ++ [Action.push branchName]
    if !env.pushOk then
      (Except.error ("failed to push branch".toList), acts)
    else
      let acts := acts ++ [Action.createPR (prTitle issue)
        (prBody issue fix env.testResult) branchName env.defaultBranch]
      match env.prURL with
      | none => (Except.error ("failed to create pull request".toList), acts)
      | some url =>
        let acts := acts ++ [Action.recordPRCreated, Action.recordIssueHandled]
        if fix.Confidence == ("high".toList) then
          let acts := acts ++ [Action.addComment issue.number
            (closeComment fix url)]
          let acts := acts ++
            (if env.closeCommentOk then []
             else [Action.printOut ("Warning: Could not add closing comment".toList)])
          let acts := acts ++ [Action.closeIssue issue.number]
          let acts := acts ++
            (if env.closeOk then [Action.printOut ("Issue closed".toList)]
             else [Action.printOut ("Warning: Could not close issue".toList)])
          (Except.ok (), acts)
        else
          (Except.ok (), acts)

/-- Driver `processIssue` (src/main.go:606-875) as a pure function from the
collaborator environment to (result, action trace). -/
def processIssue (env : Env) (issue : Issue) :
    Except (List Char) Unit × List Action :=
  if isIssueTooVague issue then
    let acts := [Action.addComment issue.number vagueQuestionComment]
    if env.vagueCommentOk then
      (Except.ok (), acts ++ [Action.recordQuestionAsked])
    else (Except.error ("failed to post comment".toList), acts)
  else if !env.gitInitOk then
    (Except.error ("failed to initialize git".toList), [])
  else if !env.cloneOk then
    (Except.error ("failed to clone repo".toList), [])
  else if !env.repoCtxOk then
    (Except.error ("failed to read repo context".toList), [])
  else
    match env.aiFix with
    | none => (Except.error ("AI analysis failed".toList), [])
    | some fix =>
      if fix.NeedsMoreInfo && decide (0 < fix.Questions.length) then
        let acts := [Action.addComment issue.number
          (questionComment fix.Questions)]
        if env.questionCommentOk then
          (Except.ok (), acts ++ [Action.recordQuestionAsked])
        else (Except.error ("failed to post questions".toList), acts)
      else if fix.FileChanges.isEmpty then
        let acts := [Action.addComment issue.number
          (responseComment fix.Explanation)]
        if env.responseCommentOk then
          (Except.ok (), acts ++ [Action.closeIssue issue.number] ++
            (if env.closeOk then [Action.printOut ("Issue closed".toList)]
             else [Action.printOut ("Warning: Could not close issue".toList)]) ++
            [Action.recordIssueHandled])
        else (Except.error ("failed to post response".toList), acts)
      else
        let branchName := createBranchName issue
        let acts := [Action.createBranch branchName]
        if !env.branchOk then
          (Except.error ("failed to create branch".toList), acts)
        else
          let ar := applyChangesAux env.applyOkAt 0 fix.FileChanges
          let acts := acts ++ ar.1
          if !ar.2 then
            (Except.error ("failed to apply changes".toList), acts)
          else
            let tr := env.testResult
            if !tr.Command.isEmpty then
              if !tr.Passed then
                (Except.error ("tests failed after applying changes".toList),
                 acts ++ [Action.printOut tr.Output])
              else
                afterTests env issue fix branchName
                  (acts ++ [Action.printOut ("All tests passed".toList)])
            else
              afterTests env issue fix branchName
                (acts ++ [Action.printOut ("No tests detected - proceeding without test validation".toList)])

/-- Number of trace actions satisfying a predicate. -/
def countAct (trace : List Action) (p : Action → Bool) : Nat :=
  (trace.filter p).length

def isCommitAct : Action → Bool
  | .commit _ => true
  | _ => false

def isPushAct : Action → Bool
  | .push _ => true
  | _ => false

def isCreatePRAct : Action → Bool
  | .createPR _ _ _ _ => true
  | _ => false

def isAddCommentAct : Action → Bool
  | .addComment _ _ => true
  | _ => false

def isCreateBranchAct : Action → Bool
  | .createBranch _ => true
  | _ => false

def isQuestionTallyAct : Action → Bool
  | .recordQuestionAsked => true
  | _ => false

def isHandledTallyAct : Action → Bool
  | .recordIssueHandled => true
  | _ => false

def isPRTallyAct : Action → Bool
  | .recordPRCreated => true
  | _ => false

theorem countAct_append (t1 t2 : List Action) (p : Action → Bool) :
    countAct (t1 ++ t2) p = countAct t1 p + countAct t2 p := by
  simp [countAct, List.filter_append]

theorem applyChangesAux_acts (okAt : Nat → Bool) (i : Nat)
    (cs : List FileChange) (a : Action)
    (ha : a ∈ (applyChangesAux okAt i cs).1) : ∃ q, a = Action.applyFile q := by
  induction cs generalizing i with
  | nil => simp [applyChangesAux] at ha
  | cons c cs ih =>
    simp only [applyChangesAux] at ha
    split at ha
    · rcases List.mem_cons.mp ha with h | h
      · exact ⟨c.FilePath, h⟩
      · exact ih (i + 1) h
    · rw [List.mem_singleton] at ha
      exact ⟨c.FilePath, ha⟩

theorem countAct_applyActs_eq_zero (okAt : Nat → Bool) (i : Nat)
    (cs : List FileChange) (p : Action → Bool)
    (hp : ∀ q, p (Action.applyFile q) = false) :
    countAct (applyChangesAux okAt i cs).1 p = 0 := by
  simp only [countAct, List.length_eq_zero, List.filter_eq_nil_iff]
  intro a ha
  obtain ⟨q, rfl⟩ := applyChangesAux_acts okAt i cs a ha
  simp [hp]

theorem applyChangesAux_all_ok (okAt : Nat → Bool)
    (h : ∀ n, okAt n = true) (i : Nat) (cs : List FileChange) :
    (applyChangesAux okAt i cs).2 = true := by
  induction cs generalizing i with
  | nil => rfl
  | cons c cs ih => simp [applyChangesAux, h i, ih (i + 1)]

/-- C1: whenever the test runner reports a configured test command that
failed, processing performs zero commits, zero pushes and zero
change-request creations; and when the publish path is actually reached
(issue not vague, clone/context/model stages succeed, the proposal has file
changes and does not divert to the clarify path, branch creation and file
writes succeed), the attempt terminates with the `tests failed after
applying changes` error and the captured test output appears in the
emitted output trace. -/
theorem C1_test_failure_blocks_publish (env : Env) (issue : Issue) (fix : Fix)
    (hfix : env.aiFix = some fix)
    (hchanges : fix.FileChanges ≠ [])
    (hcmd : env.testResult.Command ≠ [])
    (hfail : env.testResult.Passed = false) :
    countAct (processIssue env issue).2 isCommitAct = 0 ∧
    countAct (processIssue env issue).2 isPushAct = 0 ∧
    countAct (processIssue env issue).2 isCreatePRAct = 0 ∧
    (isIssueTooVague issue = false → env.gitInitOk = true →
     env.cloneOk = true → env.repoCtxOk = true →
     fix.NeedsMoreInfo = false → env.branchOk = true →
     (∀ n, env.applyOkAt n = true) →
     (processIssue env issue).1 =
       Except.error ("tests failed after applying changes".toList) ∧
     Action.printOut env.testResult.Output ∈ (processIssue env issue).2) := by
  have hcmd' : env.testResult.Command.isEmpty = false := by
    cases h : env.testResult.Command with
    | nil => exact absurd h hcmd
    | cons a l => rfl
  have hne : fix.FileChanges.isEmpty = false := by
    cases h : fix.FileChanges with
    | nil => exact absurd h hchanges
    | cons a l => rfl
  have hz1 := countAct_applyActs_eq_zero env.applyOkAt 0 fix.FileChanges
    isCommitAct (fun q => rfl)
  have hz2 := countAct_applyActs_eq_zero env.applyOkAt 0 fix.FileChanges
    isPushAct (fun q => rfl)
  have hz3 := countAct_applyActs_eq_zero env.applyOkAt 0 fix.FileChanges
    isCreatePRAct (fun q => rfl)
  by_cases hv : isIssueTooVague issue = true
  · cases hvc : env.vagueCommentOk <;>
      simp [processIssue, hv, hvc, countAct, isCommitAct, isPushAct, isCreatePRAct]
  · rw [Bool.not_eq_true] at hv
    cases hg : env.gitInitOk with
    | false => simp [processIssue, hv, hg, countAct]
    | true =>
    cases hc : env.cloneOk with
    | false => simp [processIssue, hv, hg, hc, countAct]
    | true =>
    cases hx : env.repoCtxOk with
    | false => simp [processIssue, hv, hg, hc, hx, countAct]
    | true =>
    by_cases hmi : (fix.NeedsMoreInfo && decide (0 < fix.Questions.length)) = true
    · obtain ⟨hn, hql⟩ : fix.NeedsMoreInfo = true ∧ 0 < fix.Questions.length := by
        simpa using hmi
      cases hqc : env.questionCommentOk <;>
        simp [processIssue, hv, hg, hc, hx, hfix, hn, hql, hqc, countAct,
          isCommitAct, isPushAct, isCreatePRAct]
    · rw [Bool.not_eq_true] at hmi
      cases hb : env.branchOk with
      | false =>
        simp [processIssue, hv, hg, hc, hx, hfix, hmi, hne, hb, countAct,
          isCommitAct, isPushAct, isCreatePRAct]
      | true =>
        have hmem : ∀ a ∈ (applyChangesAux env.applyOkAt 0 fix.FileChanges).1,
            ∃ q, a = Action.applyFile q :=
          fun a ha => applyChangesAux_acts env.applyOkAt 0 fix.FileChanges a ha
        cases har : (applyChangesAux env.applyOkAt 0 fix.FileChanges).2 with
        | false =>
          simp [processIssue, hv, hg, hc, hx, hfix, hmi, hne, hb, har,
            countAct, isCommitAct, isPushAct, isCreatePRAct]
          refine ⟨fun a ha => ?_, fun a ha => ?_, fun a ha => ?_, ?_⟩
          · obtain ⟨q, rfl⟩ := hmem a ha; rfl
          · obtain ⟨q, rfl⟩ := hmem a ha; rfl
          · obtain ⟨q, rfl⟩ := hmem a ha; rfl
          · intro _
            by_contra hcon
            push_neg at hcon
            have hall : ∀ n, env.applyOkAt n = true := by
              intro n
              cases h : env.applyOkAt n with
              | false => exact absurd h (hcon n)
              | true => rfl
            rw [applyChangesAux_all_ok env.applyOkAt hall 0 fix.FileChanges] at har
            simp at har
        | true =>
          simp [processIssue, hv, hg, hc, hx, hfix, hmi, hne, hb, har, hcmd',
            hfail, countAct, isCommitAct, isPushAct, isCreatePRAct]
          refine ⟨fun a ha => ?_, fun a ha => ?_, fun a ha => ?_⟩
          · obtain ⟨q, rfl⟩ := hmem a ha; rfl
          · obtain ⟨q, rfl⟩ := hmem a ha; rfl
          · obtain ⟨q, rfl⟩ := hmem a ha; rfl

/-- Concrete fix proposal for exercising the failing-test scenario. -/
def fixC1 : Fix :=
  { FileChanges := [⟨("src/util/parse.go".toList), ("fixed".toList)⟩],
    Explanation := ("guard against nil".toList),
    Confidence := ("high".toList),
    NeedsMoreInfo := false, Questions := [] }

/-- Environment where every collaborator succeeds but the detected test
command fails. -/
def envC1 : Env :=
  { gitInitOk := true, cloneOk := true, repoCtxOk := true,
    aiFix := some fixC1, vagueCommentOk := true, questionCommentOk := true,
    responseCommentOk := true, branchOk := true, applyOkAt := fun _ => true,
    testResult := ⟨false, ("FAIL: TestParse".toList), ("go test ./...".toList)⟩,
    commitOk := true, pushOk := true,
    prURL := some ("https://example.com/pr/1".toList),
    closeCommentOk := true, closeOk := true,
    defaultBranch := ("main".toList) }

def issueC1 : Issue :=
  ⟨7, ("Null pointer in src/util/parse.go".toList),
    ("Crash details attached".toList)⟩

/-- Witness for C1 at a concrete input: the failing test command yields
zero commits/pushes/change requests and the test-failure error. -/
theorem C1_witness :
    countAct (processIssue envC1 issueC1).2 isCommitAct = 0 ∧
    countAct (processIssue envC1 issueC1).2 isPushAct = 0 ∧
    countAct (processIssue envC1 issueC1).2 isCreatePRAct = 0 ∧
    (processIssue envC1 issueC1).1 =
      Except.error ("tests failed after applying changes".toList) := by
  have h := C1_test_failure_blocks_publish envC1 issueC1 fixC1 rfl
    (by decide) (by decide) rfl
  exact ⟨h.1, h.2.1, h.2.2.1,
    (h.2.2.2 (by decide) rfl rfl rfl rfl rfl (fun n => rfl)).1⟩

theorem questionsBlock_infix (i : Nat) (qs : List (List Char)) (q : List Char)
    (hmem : q ∈ qs) :
    ∃ s t, questionsBlock i qs = s ++ q ++ t := by
  induction qs generalizing i with
  | nil => cases hmem
  | cons x xs ih =>
    rcases List.mem_cons.mp hmem with h | h
    · subst h
      exact ⟨(toString i).toList ++ (". ".toList),
        ("\n".toList) ++ questionsBlock (i + 1) xs, by simp [questionsBlock]⟩
    · obtain ⟨s, t, hst⟩ := ih (i + 1) h
      exact ⟨(toString i).toList ++ (". ".toList) ++ x ++ ("\n".toList) ++ s, t,
        by simp [questionsBlock, hst]⟩

theorem questionComment_contains (questions : List (List Char))
    (q : List Char) (hmem : q ∈ questions) :
    ∃ s t, questionComment questions = s ++ q ++ t := by
  obtain ⟨s, t, hst⟩ := questionsBlock_infix 1 questions q hmem
  exact ⟨questionCommentIntro ++ s, t ++ questionCommentOutro,
    by simp [questionComment, hst]⟩

/-- Fix proposal with the needs-more-info flag set but an empty question
list. -/
def fixC2 : Fix :=
  { FileChanges := [⟨("a.go".toList), ("package a".toList)⟩],
    Explanation := ("adjust parser".toList),
    Confidence := ("low".toList),
    NeedsMoreInfo := true, Questions := [] }

def envC2 : Env :=
  { gitInitOk := true, cloneOk := true, repoCtxOk := true,
    aiFix := some fixC2, vagueCommentOk := true, questionCommentOk := true,
    responseCommentOk := true, branchOk := true, applyOkAt := fun _ => true,
    testResult := ⟨true, ("No tests detected".toList), []⟩,
    commitOk := true, pushOk := true,
    prURL := some ("https://example.com/pr/2".toList),
    closeCommentOk := true, closeOk := true,
    defaultBranch := ("main".toList) }

def issueC2 : Issue :=
  ⟨3, ("Crash when parsing empty configuration".toList),
    ("Stack trace attached here".toList)⟩

/-- C2 (counterexample): a proposal with the needs-more-info flag set but
an empty question list does NOT take the clarify path — the code requires
a non-empty question list as well, so this proposal is published: one
commit, one push, one change request, and no questions-asked tally. -/
theorem C2_counterexample :
    fixC2.NeedsMoreInfo = true ∧
    envC2.aiFix = some fixC2 ∧
    (processIssue envC2 issueC2).1 = Except.ok () ∧
    countAct (processIssue envC2 issueC2).2 isCommitAct = 1 ∧
    countAct (processIssue envC2 issueC2).2 isPushAct = 1 ∧
    countAct (processIssue envC2 issueC2).2 isCreatePRAct = 1 ∧
    countAct (processIssue envC2 issueC2).2 isQuestionTallyAct = 0 ∧
    countAct (processIssue envC2 issueC2).2 isAddCommentAct = 0 := by
  refine ⟨rfl, rfl, rfl, by decide, by decide, by decide, by decide, by decide⟩

/-- C2 (amended): a proposal whose needs-more-info flag is set AND whose
question list is non-empty takes the clarify path: exactly one tracker
comment is posted (containing every question), the questions-asked tally
is incremented once, and no branch, commit, push or change request is
created. -/
theorem C2_clarify_amended (env : Env) (issue : Issue) (fix : Fix)
    (hv : isIssueTooVague issue = false)
    (hg : env.gitInitOk = true) (hc : env.cloneOk = true)
    (hx : env.repoCtxOk = true) (hfix : env.aiFix = some fix)
    (hmi : fix.NeedsMoreInfo = true) (hq : fix.Questions ≠ [])
    (hok : env.questionCommentOk = true) :
    (processIssue env issue).1 = Except.ok () ∧
    (processIssue env issue).2 =
      [Action.addComment issue.number (questionComment fix.Questions),
       Action.recordQuestionAsked] ∧
    (∀ q ∈ fix.Questions, ∃ s t, questionComment fix.Questions = s ++ q ++ t) ∧
    countAct (processIssue env issue).2 isCreateBranchAct = 0 ∧
    countAct (processIssue env issue).2 isCommitAct = 0 ∧
    countAct (processIssue env issue).2 isPushAct = 0 ∧
    countAct (processIssue env issue).2 isCreatePRAct = 0 ∧
    countAct (processIssue env issue).2 isAddCommentAct = 1 ∧
    countAct (processIssue env issue).2 isQuestionTallyAct = 1 := by
  have hql : 0 < fix.Questions.length := List.length_pos.mpr hq
  have htrace : processIssue env issue =
      (Except.ok (),
        [Action.addComment issue.number (questionComment fix.Questions),
         Action.recordQuestionAsked]) := by
    simp [processIssue, hv, hg, hc, hx, hfix, hmi, hql, hok]
  refine ⟨by rw [htrace], by rw [htrace],
    fun q hqmem => questionComment_contains fix.Questions q hqmem,
    ?_, ?_, ?_, ?_, ?_, ?_⟩ <;>
    rw [htrace] <;>
    simp [countAct, isCreateBranchAct, isCommitAct, isPushAct, isCreatePRAct,
      isAddCommentAct, isQuestionTallyAct]

/-- Fix proposal with the needs-more-info flag set and one question. -/
def fixC2w : Fix :=
  { FileChanges := [],
    Explanation := ("unclear".toList),
    Confidence := ("low".toList),
    NeedsMoreInfo := true,
    Questions := [("Which browser shows the failure?".toList)] }

def envC2w : Env :=
  { gitInitOk := true, cloneOk := true, repoCtxOk := true,
    aiFix := some fixC2w, vagueCommentOk := true, questionCommentOk := true,
    responseCommentOk := true, branchOk := true, applyOkAt := fun _ => true,
    testResult := ⟨true, ("No tests detected".toList), []⟩,
    commitOk := true, pushOk := true,
    prURL := some ("https://example.com/pr/3".toList),
    closeCommentOk := true, closeOk := true,
    defaultBranch := ("main".toList) }

/-- Witness for the amended C2 at a concrete input: one question, one
comment, one questions-asked tally, zero commits. -/
theorem C2_witness :
    (processIssue envC2w issueC2).1 = Except.ok () ∧
    countAct (processIssue envC2w issueC2).2 isQuestionTallyAct = 1 ∧
    countAct (processIssue envC2w issueC2).2 isCommitAct = 0 := by
  obtain ⟨h1, _, _, _, h5, _, _, _, h9⟩ :=
    C2_clarify_amended envC2w issueC2 fixC2w (by decide) rfl rfl rfl rfl rfl
      (by decide) rfl
  exact ⟨h1, h9, h5⟩

/-- C10: close-issue failures are non-fatal.  On the no-code-needed path a
failing close call still yields a successful attempt with the
issues-handled tally recorded; on the high-confidence publish path failures
of both the closing comment and the close call still yield a successful
attempt with both tallies recorded and the change request created. -/
theorem C10_close_failure_nonfatal (env1 env2 : Env) (issue1 issue2 : Issue)
    (fix1 fix2 : Fix)
    (h1a : isIssueTooVague issue1 = false) (h1b : env1.gitInitOk = true)
    (h1c : env1.cloneOk = true) (h1d : env1.repoCtxOk = true)
    (h1e : env1.aiFix = some fix1)
    (h1f : fix1.NeedsMoreInfo = false ∨ fix1.Questions = [])
    (h1g : fix1.FileChanges = [])
    (h1h : env1.responseCommentOk = true)
    (h1i : env1.closeOk = false)
    (h2a : isIssueTooVague issue2 = false) (h2b : env2.gitInitOk = true)
    (h2c : env2.cloneOk = true) (h2d : env2.repoCtxOk = true)
    (h2e : env2.aiFix = some fix2)
    (h2f : fix2.NeedsMoreInfo = false ∨ fix2.Questions = [])
    (h2g : fix2.FileChanges ≠ [])
    (h2h : env2.branchOk = true)
    (h2i : ∀ n, env2.applyOkAt n = true)
    (h2j : env2.testResult.Command = [] ∨ env2.testResult.Passed = true)
    (h2k : env2.commitOk = true) (h2l : env2.pushOk = true)
    (h2m : env2.prURL.isSome = true)
    (h2n : fix2.Confidence = ("high".toList))
    (h2o : env2.closeCommentOk = false) (h2p : env2.closeOk = false) :
    ((processIssue env1 issue1).1 = Except.ok () ∧
     countAct (processIssue env1 issue1).2 isHandledTallyAct = 1) ∧
    ((processIssue env2 issue2).1 = Except.ok () ∧
     countAct (processIssue env2 issue2).2 isHandledTallyAct = 1 ∧
     countAct (processIssue env2 issue2).2 isPRTallyAct = 1 ∧
     countAct (processIssue env2 issue2).2 isCreatePRAct = 1) := by
  constructor
  · have htr : processIssue env1 issue1 =
        (Except.ok (),
          [Action.addComment issue1.number (responseComment fix1.Explanation),
           Action.closeIssue issue1.number,
           Action.printOut ("Warning: Could not close issue".toList),
           Action.recordIssueHandled]) := by
      rcases h1f with hn | hq
      · simp [processIssue, h1a, h1b, h1c, h1d, h1e, hn, h1g, h1h, h1i]
      · simp [processIssue, h1a, h1b, h1c, h1d, h1e, hq, h1g, h1h, h1i]
    rw [htr]
    exact ⟨rfl, by simp [countAct, isHandledTallyAct]⟩
  · have hne2 : fix2.FileChanges.isEmpty = false := by
      cases h : fix2.FileChanges with
      | nil => exact absurd h h2g
      | cons a l => rfl
    have harok := applyChangesAux_all_ok env2.applyOkAt h2i 0 fix2.FileChanges
    obtain ⟨url, hurl⟩ := Option.isSome_iff_exists.mp h2m
    have hmi2 : (fix2.NeedsMoreInfo && decide (0 < fix2.Questions.length)) = false := by
      rcases h2f with hn | hq
      · simp [hn]
      · simp [hq]
    have hz1 : (List.filter isHandledTallyAct
        (applyChangesAux env2.applyOkAt 0 fix2.FileChanges).1).length = 0 := by
      simpa [countAct] using countAct_applyActs_eq_zero env2.applyOkAt 0
        fix2.FileChanges isHandledTallyAct (fun q => rfl)
    have hz2 : (List.filter isPRTallyAct
        (applyChangesAux env2.applyOkAt 0 fix2.FileChanges).1).length = 0 := by
      simpa [countAct] using countAct_applyActs_eq_zero env2.applyOkAt 0
        fix2.FileChanges isPRTallyAct (fun q => rfl)
    have hz3 : (List.filter isCreatePRAct
        (applyChangesAux env2.applyOkAt 0 fix2.FileChanges).1).length = 0 := by
      simpa [countAct] using countAct_applyActs_eq_zero env2.applyOkAt 0
        fix2.FileChanges isCreatePRAct (fun q => rfl)
    rcases h2j with hcm | hps
    · simp [processIssue, afterTests, h2a, h2b, h2c, h2d, h2e, hmi2, hne2,
        h2h, harok, hcm, h2k, h2l, hurl, h2n, h2o, h2p, countAct,
        List.filter_append, hz1, hz2, hz3, isHandledTallyAct, isPRTallyAct,
        isCreatePRAct]
    · cases hcm2 : env2.testResult.Command.isEmpty with
      | true =>
        simp [processIssue, afterTests, h2a, h2b, h2c, h2d, h2e, hmi2, hne2,
          h2h, harok, hcm2, hps, h2k, h2l, hurl, h2n, h2o, h2p, countAct,
          List.filter_append, hz1, hz2, hz3, isHandledTallyAct, isPRTallyAct,
          isCreatePRAct]
      | false =>
        simp [processIssue, afterTests, h2a, h2b, h2c, h2d, h2e, hmi2, hne2,
          h2h, harok, hcm2, hps, h2k, h2l, hurl, h2n, h2o, h2p, countAct,
          List.filter_append, hz1, hz2, hz3, isHandledTallyAct, isPRTallyAct,
          isCreatePRAct]

/-- No-code proposal used to exercise the C10 no-code path. -/
def fixC10a : Fix :=
  { FileChanges := [],
    Explanation := ("this is a usage question".toList),
    Confidence := ("high".toList),
    NeedsMoreInfo := false, Questions := [] }

/-- Environment for the C10 no-code path with a failing close call. -/
def envC10a : Env :=
  { gitInitOk := true, cloneOk := true, repoCtxOk := true,
    aiFix := some fixC10a, vagueCommentOk := true, questionCommentOk := true,
    responseCommentOk := true, branchOk := true, applyOkAt := fun _ => true,
    testResult := ⟨true, ("No tests detected".toList), []⟩,
    commitOk := true, pushOk := true,
    prURL := some ("https://example.com/pr/4".toList),
    closeCommentOk := true, closeOk := false,
    defaultBranch := ("main".toList) }

/-- High-confidence proposal used to exercise the C10 publish path. -/
def fixC10b : Fix :=
  { FileChanges := [⟨("src/app.js".toList), ("export default 1".toList)⟩],
    Explanation := ("repair export".toList),
    Confidence := ("high".toList),
    NeedsMoreInfo := false, Questions := [] }

/-- Environment for the C10 publish path where both the closing comment
and the close call fail. -/
def envC10b : Env :=
  { gitInitOk := true, cloneOk := true, repoCtxOk := true,
    aiFix := some fixC10b, vagueCommentOk := true, questionCommentOk := true,
    responseCommentOk := true, branchOk := true, applyOkAt := fun _ => true,
    testResult := ⟨true, ("No tests detected".toList), []⟩,
    commitOk := true, pushOk := true,
    prURL := some ("https://example.com/pr/5".toList),
    closeCommentOk := false, closeOk := false,
    defaultBranch := ("main".toList) }

/-- Witness for C10 at concrete inputs: on both paths the attempt succeeds
and the tallies are recorded despite the failing close calls. -/
theorem C10_witness :
    ((processIssue envC10a issueC2).1 = Except.ok () ∧
     countAct (processIssue envC10a issueC2).2 isHandledTallyAct = 1) ∧
    ((processIssue envC10b issueC2).1 = Except.ok () ∧
     countAct (processIssue envC10b issueC2).2 isHandledTallyAct = 1 ∧
     countAct (processIssue envC10b issueC2).2 isPRTallyAct = 1 ∧
     countAct (processIssue envC10b issueC2).2 isCreatePRAct = 1) :=
  C10_close_failure_nonfatal envC10a envC10b issueC2 issueC2 fixC10a fixC10b
    (by decide) rfl rfl rfl rfl (Or.inl rfl) rfl rfl rfl
    (by decide) rfl rfl rfl rfl (Or.inl rfl) (by decide) rfl (fun n => rfl)
    (Or.inl rfl) rfl rfl rfl rfl rfl rfl

end MCF
